import Mathlib

/-!
Verification of the Interrixon backend poll-session engine against its
natural-language specification.  The definitions below are a shallow
embedding of the JavaScript source:

* `src/backend/socket/socketHandler.js` (joinPoll / vote / closePoll handlers)
* `src/backend/services/pollService.js` (createPoll / submitVote)
* `src/backend/controllers/pollController.js` (HTTP vote endpoint)
* the RateLimiter utility (rateLimiter.js)

Time is modelled as `Int` milliseconds, the document store as a `List Poll`
in insertion order (Mongo findOne returns the first match), and each
asynchronous handler as a pure function from its inputs and the store to an
outcome record (callback payload, updated store, broadcasts emitted).
-/

namespace Interrixon

/-- Question kinds, the `type` field of a question
(values `multiple-choice`, `yes-no`, `open-text`, `rating`). -/
inductive QType
  | multipleChoice
  | yesNo
  | openText
  | rating
deriving DecidableEq

/-- A vote value as stored in a response document: the JS code stores either
the raw string (choice / open-text) or the parsed integer (rating). -/
inductive Value
  | str (s : String)
  | num (n : Int)
deriving DecidableEq

/-- One entry of a question `results` array.  For choice questions the code
stores `{option, votes}` counter objects; the service pushes `{response}`
sample objects for rating questions. -/
inductive ResultEntry
  | choice (option : String) (votes : Nat)
  | ratingSample (response : Int)
deriving DecidableEq

/-- A `Response` subdocument: `{userId, questionId, response, timestamp}`. -/
structure Response where
  userId : String
  questionId : String
  response : Value
  timestamp : Int
deriving DecidableEq

/-- An embedded question: `_id` (as string), text, type, option labels and
the results array. -/
structure Question where
  id : String
  question : String
  type : QType
  options : List String
  results : List ResultEntry
deriving DecidableEq

/-- The poll aggregate of the current schema (pollService / socketHandler):
`sessionId` is the 6-character user-facing code, `systemId` the Mongo
`_id` as a 24-hex string. -/
structure Poll where
  sessionId : String
  systemId : String
  pollName : String
  questions : List Question
  responses : List Response
  voters : List String
  expiresAt : Int
  isActive : Bool
  closedAt : Option Int
  createdBy : String
deriving DecidableEq

/-- `modifyAt f i l` applies `f` to the element at index `i`, the semantics
of a Mongo positional update path such as `questions.i.results.j.votes`. -/
def modifyAt (f : α → α) : Nat → List α → List α
  | _, [] => []
  | 0, x :: xs => f x :: xs
  | n + 1, x :: xs => x :: modifyAt f n xs

/-- JS `Array.prototype.findIndex` combined with the subsequent indexed
access: returns the index of the first element satisfying the predicate
together with that element. -/
def findWithIdx (pred : α → Bool) : List α → Option (Nat × α)
  | [] => none
  | x :: xs =>
    if pred x then some (0, x)
    else (findWithIdx pred xs).map (fun p => (p.fst + 1, p.snd))

/-- `validator.escape` on one character, with the forward slash restored
afterwards as in `sanitizeText` (pollService.js).  The escaped characters
are the ones validator.js escapes: ampersand, double quote, single quote,
angle brackets, slash, backslash and backquote. -/
def escapeChar (c : Char) : String :=
  if c = '&' then "&amp;"
  else if c = Char.ofNat 34 then "&quot;"
  else if c = Char.ofNat 39 then "&#x27;"
  else if c = '<' then "&lt;"
  else if c = '>' then "&gt;"
  else if c = '/' then "/"
  else if c = Char.ofNat 92 then "&#x5C;"
  else if c = Char.ofNat 96 then "&#96;"
  else String.singleton c

/-- `sanitizeText` from pollService.js: validator.escape with the slash
entity replaced back by a literal slash. -/
def sanitizeText (s : String) : String :=
  String.join (s.data.map escapeChar)

/-- JS `String.prototype.trim`: strip whitespace from both ends.  (Defined
structurally over the character list so that it evaluates by `decide`.) -/
def jsTrim (s : String) : String :=
  String.mk (((s.data.dropWhile Char.isWhitespace).reverse.dropWhile Char.isWhitespace).reverse)

/-- JS `parseInt(s, 10)`: skip leading whitespace, optional sign, then the
longest prefix of decimal digits; `none` models `NaN`. -/
def parseInt10 (s : String) : Option Int :=
  let cs := s.data.dropWhile Char.isWhitespace
  let signAndRest : Bool × List Char :=
    match cs with
    | '-' :: rest => (true, rest)
    | '+' :: rest => (false, rest)
    | _ => (false, cs)
  let ds := signAndRest.snd.takeWhile Char.isDigit
  if ds.isEmpty then none
  else
    let n : Nat := ds.foldl (fun acc c => acc * 10 + (c.toNat - 48)) 0
    some (if signAndRest.fst then -(n : Int) else (n : Int))

/-- The regex `^[A-Z0-9]{6}$/i` of `isValidIdentifier`. -/
def isSixChar (s : String) : Bool :=
  s.length = 6 && s.data.all (fun c => c.isAlpha || c.isDigit)

/-- The regex `^[a-fA-F0-9]{24}$` of `isValidIdentifier`. -/
def isHex24 (s : String) : Bool :=
  s.length = 24 && s.data.all (fun c => c.isDigit || ('a' ≤ c && c ≤ 'f') || ('A' ≤ c && c ≤ 'F'))

/-- `isValidIdentifier` from socketHandler.js / pollService.js: a 6-char
alphanumeric session code or a 24-char hex object id. -/
def isValidIdentifier (s : String) : Bool :=
  isSixChar s || isHex24 s

/-- The Mongo query built by `buildPollQuery`: for a 24-hex id it matches
either `sessionId` or `_id`, otherwise `sessionId` only. -/
def matchesPollQuery (id : String) (p : Poll) : Bool :=
  if isHex24 id then p.sessionId == id || p.systemId == id
  else p.sessionId == id

/-- `Poll.findOne(buildPollQuery(id))`: first poll in the store matching
the query. -/
def findOnePoll (db : List Poll) (id : String) : Option Poll :=
  db.find? (matchesPollQuery id)

/-- `Poll.findOneAndUpdate(buildPollQuery(id), ...)`: applies the mutation
to the first matching document in the store. -/
def findOneAndUpdatePoll (db : List Poll) (id : String) (f : Poll → Poll) : List Poll :=
  match db with
  | [] => []
  | p :: ps =>
    if matchesPollQuery id p then f p :: ps
    else p :: findOneAndUpdatePoll ps id f

instance {ε α : Type} [DecidableEq ε] [DecidableEq α] : DecidableEq (Except ε α) := by
  intro a b
  cases a with
  | ok x =>
    cases b with
    | ok y => exact decidable_of_iff (x = y) (by simp)
    | error y => exact isFalse (by simp)
  | error x =>
    cases b with
    | ok y => exact isFalse (by simp)
    | error y => exact decidable_of_iff (x = y) (by simp)

/-- Does a results entry carry `option === v`?  (`r.option === vote`:
a rating sample has no `option` field, so the strict comparison is false.) -/
def entryOptionIs (v : String) : ResultEntry → Bool
  | ResultEntry.choice o _ => o == v
  | ResultEntry.ratingSample _ => false

/-- The `$inc ... votes: 1` mutation on one results entry. -/
def bumpVotes : ResultEntry → ResultEntry
  | ResultEntry.choice o v => ResultEntry.choice o (v + 1)
  | e => e

/-- The update document assembled by the socket vote handler before its
`findOneAndUpdate` call: an optional `$inc` on
`questions.<qi>.results.<oi>.votes`, a `$push` on `responses`, and an
optional `$push` on `voters`. -/
structure UpdateQuery where
  incVote : Option (Nat × Nat)
  pushResponse : Option Response
  pushVoter : Option String
deriving DecidableEq

/-- Applying the update document to one poll aggregate: `$inc` bumps the
addressed counter, `$push` appends. -/
def applyUpdateToPoll (p : Poll) (u : UpdateQuery) : Poll :=
  { p with
    questions :=
      match u.incVote with
      | none => p.questions
      | some qo =>
        modifyAt (fun q => { q with results := modifyAt bumpVotes qo.snd q.results })
          qo.fst p.questions
    responses := p.responses ++ (match u.pushResponse with | none => [] | some r => [r])
    voters := p.voters ++ (match u.pushVoter with | none => [] | some v => [v]) }

/-- The per-poll part of the socket vote handler (socketHandler.js, vote
event), computed from the poll document read by `Poll.findOne`: the
already-voted check, question lookup, per-kind validation and the update
document.  Mirrors the source order: duplicate check, then question lookup,
then the type dispatch. -/
def pollVoteDecide (p : Poll) (now : Int) (questionId vote userId : String) :
    Except String UpdateQuery :=
  if p.responses.any (fun r => r.userId == userId && r.questionId == questionId) then
    Except.error "You have already voted on this question"
  else
    match findWithIdx (fun q => q.id == questionId) p.questions with
    | none => Except.error "Question not found"
    | some (qi, q) =>
      match q.type with
      | QType.multipleChoice | QType.yesNo =>
        match findWithIdx (entryOptionIs vote) q.results with
        | none => Except.error "Invalid option"
        | some (oi, _) =>
          Except.ok
            { incVote := some (qi, oi)
              pushResponse := some ⟨userId, questionId, Value.str vote, now⟩
              pushVoter := if p.voters.contains userId then none else some userId }
      | QType.rating =>
        match parseInt10 vote with
        | none => Except.error "Rating must be between 1 and 5"
        | some n =>
          if n < 1 || 5 < n then Except.error "Rating must be between 1 and 5"
          else
            Except.ok
              { incVote := none
                pushResponse := some ⟨userId, questionId, Value.num n, now⟩
                pushVoter := if p.voters.contains userId then none else some userId }
      | QType.openText =>
        Except.ok
          { incVote := none
            pushResponse := some ⟨userId, questionId, Value.str vote, now⟩
            pushVoter := if p.voters.contains userId then none else some userId }

/-- Outcome of the read phase of the socket vote handler: either the
callback failure message, or the target room plus the update document that
the later `findOneAndUpdate` will apply. -/
inductive Decision
  | reject (msg : String)
  | accept (target : String) (upd : UpdateQuery)
deriving DecidableEq

/-- The read phase of the socket vote handler, in source order: rate
limiter, joined-room presence, identifier syntax, poll resolution, room
match against the resolved canonical session id, then `pollVoteDecide`.
`pollData` is the session id stored on the socket by joinPoll. -/
def socketVoteDecide (allowed : Bool) (pollData : Option String) (db : List Poll)
    (now : Int) (sessionId questionId vote userId : String) : Decision :=
  if !allowed then Decision.reject "Voting too frequently"
  else
    match pollData with
    | none => Decision.reject "You must join the poll first"
    | some room =>
      if !(isValidIdentifier sessionId) then Decision.reject "Invalid session ID"
      else
        match findOnePoll db sessionId with
        | none => Decision.reject "Poll not found or expired"
        | some p =>
          if room == p.sessionId then
            match pollVoteDecide p now questionId vote userId with
            | Except.error m => Decision.reject m
            | Except.ok u => Decision.accept p.sessionId u
          else Decision.reject "You must join the poll first"

/-- The write phase: on accept, `findOneAndUpdate(buildPollQuery(sessionId), updateQuery)`
runs against the store as it is at write time (which, under interleaving,
may differ from the snapshot the decision was computed from). -/
def Decision.applyTo (d : Decision) (db : List Poll) (sessionId : String) : List Poll :=
  match d with
  | Decision.reject _ => db
  | Decision.accept _ u => findOneAndUpdatePoll db sessionId (fun p => applyUpdateToPoll p u)

/-- Callback payload and side effects of one complete socket vote event. -/
structure VoteOutcome where
  success : Bool
  message : String
  db : List Poll
  broadcast : Bool
deriving DecidableEq

/-- One socket vote event run without interleaving: the read phase
immediately followed by the write phase; a `pollUpdate` broadcast is
emitted exactly on success. -/
def socketVote (allowed : Bool) (pollData : Option String) (db : List Poll)
    (now : Int) (sessionId questionId vote userId : String) : VoteOutcome :=
  match socketVoteDecide allowed pollData db now sessionId questionId vote userId with
  | Decision.reject m => ⟨false, m, db, false⟩
  | Decision.accept _ u =>
    ⟨true, "Vote recorded", findOneAndUpdatePoll db sessionId (fun p => applyUpdateToPoll p u),
      true⟩

/-- Common tail of every accepted vote in `pollService.submitVote`: set the
new questions array, append the response, and add the voter only when the
user has not voted on any question yet (`!poll.voters.includes(userId)`). -/
def finishVote (p : Poll) (qs : List Question) (userId : String) (resp : Response) : Poll :=
  { p with
    questions := qs
    responses := p.responses ++ [resp]
    voters := if p.voters.contains userId then p.voters else p.voters ++ [userId] }

/-- `pollService.submitVote` after the store lookup, acting on the resolved
poll document (lines 158-212 of pollService.js): expiry check, question
lookup, per-question duplicate check, per-kind validation and mutation.
Validation errors throw before any mutation, so only `Except.ok` carries a
changed document.  Note: the expiry check tests `now > expiresAt` only;
there is no check of `isActive`. -/
def submitVoteOnPoll (p : Poll) (now : Int) (questionId option userId : String) :
    Except String Poll :=
  if p.expiresAt < now then Except.error "Poll has expired."
  else
    match findWithIdx (fun q => q.id == questionId) p.questions with
    | none => Except.error "Question not found."
    | some (qi, q) =>
      if p.responses.any (fun r => r.userId == userId && r.questionId == questionId) then
        Except.error "You have already voted on this question."
      else
        match q.type with
        | QType.openText =>
          if (jsTrim option) == "" then Except.error "Response text is required."
          else
            Except.ok (finishVote p p.questions userId
              ⟨userId, questionId, Value.str (sanitizeText (jsTrim option)), now⟩)
        | QType.rating =>
          match parseInt10 option with
          | none => Except.error "Rating must be between 1 and 5."
          | some n =>
            if n < 1 || 5 < n then Except.error "Rating must be between 1 and 5."
            else
              Except.ok (finishVote p
                (modifyAt (fun q2 => { q2 with results := q2.results ++ [ResultEntry.ratingSample n] })
                  qi p.questions)
                userId ⟨userId, questionId, Value.num n, now⟩)
        | QType.multipleChoice | QType.yesNo =>
          let o := sanitizeText (jsTrim option)
          match findWithIdx (entryOptionIs o) q.results with
          | none => Except.error "Option not found."
          | some (oi, _) =>
            Except.ok (finishVote p
              (modifyAt (fun q2 => { q2 with results := modifyAt bumpVotes oi q2.results })
                qi p.questions)
              userId ⟨userId, questionId, Value.str o, now⟩)

/-- `pollService.submitVote` including its leading argument checks and the
store lookup; an error leaves the store untouched (`poll.save()` is only
reached on success). -/
def submitVote (db : List Poll) (now : Int) (sessionId questionId option userId : String) :
    Except String (List Poll) :=
  if !(isValidIdentifier sessionId) then Except.error "Invalid session ID format."
  else if sessionId == "" || questionId == "" || userId == "" then
    Except.error "Session ID, question ID, and user ID are required."
  else
    match findOnePoll db sessionId with
    | none => Except.error "Poll not found."
    | some p =>
      match submitVoteOnPoll p now questionId option userId with
      | Except.error m => Except.error m
      | Except.ok p2 => Except.ok (findOneAndUpdatePoll db sessionId (fun _ => p2))

/-- The poll snapshot returned by a successful joinPoll callback.  The
viewer-role reshaping of choice results keeps exactly the `{option, votes}`
fields, which on the modelled fields is the identity, so admin and viewer
snapshots coincide here.  The reported `isActive` is
`poll.isActive && poll.expiresAt > now`. -/
structure PollSnapshot where
  sessionId : String
  systemId : String
  questions : List Question
  responses : List Response
  expiresAt : Int
  totalVotes : Nat
  isActive : Bool
deriving DecidableEq

/-- Build the joinPoll callback snapshot from a poll document. -/
def pollSnapshot (p : Poll) (now : Int) : PollSnapshot :=
  { sessionId := p.sessionId
    systemId := p.systemId
    questions := p.questions
    responses := p.responses
    expiresAt := p.expiresAt
    totalVotes := p.voters.length
    isActive := p.isActive && decide (now < p.expiresAt) }

/-- Callback payload and side effects of one joinPoll event.  `user` is the
(possibly promoted) cached admin identity on the socket, `pollData` the
room session id stored on the socket, `joined` the room actually joined,
`broadcast` whether a `participantJoined` notification went to the room. -/
structure JoinOutcome where
  success : Bool
  message : String
  user : Option String
  pollData : Option String
  joined : Option String
  broadcast : Bool
  snapshot : Option PollSnapshot
deriving DecidableEq

/-- joinPoll after the rate-limit, syntax and admin gates: resolve the
poll; an unknown code returns the failure callback before `socket.join`
and before any broadcast; a resolved poll is joined under its canonical
`poll.sessionId`. -/
def joinPollResolved (user : Option String) (pd0 : Option String) (db : List Poll)
    (now : Int) (sessionId : String) : JoinOutcome :=
  match findOnePoll db sessionId with
  | none => ⟨false, "Poll not found", user, pd0, none, false, none⟩
  | some p =>
    ⟨true, "", user, some p.sessionId, some p.sessionId, true, some (pollSnapshot p now)⟩

/-- The joinPoll socket handler (socketHandler.js lines 80-177), in source
order: join rate limiter, identifier syntax, the admin gate (per-event
token verification that promotes the verified identity onto the socket
user), then resolution and join.  `verify` models `verifyAdminToken`. -/
def joinPoll (verify : Option String → Option String) (allowed : Bool)
    (user0 pd0 : Option String) (db : List Poll) (now : Int)
    (sessionId userType : String) (adminToken : Option String) : JoinOutcome :=
  if !allowed then ⟨false, "Too many join attempts", user0, pd0, none, false, none⟩
  else if !(isValidIdentifier sessionId) then
    ⟨false, "Invalid session ID", user0, pd0, none, false, none⟩
  else if userType == "admin" && user0.isNone then
    match verify adminToken with
    | none => ⟨false, "Unauthorized: admin token required", user0, pd0, none, false, none⟩
    | some a => joinPollResolved (some a) pd0 db now sessionId
  else joinPollResolved user0 pd0 db now sessionId

/-- Callback payload and side effects of one closePoll event. -/
structure CloseOutcome where
  success : Bool
  message : String
  user : Option String
  db : List Poll
  broadcast : Bool
deriving DecidableEq

/-- closePoll after the admin gate: identifier syntax check, then
`findOneAndUpdate` setting `isActive: false` and `closedAt`; a
`pollClosed` broadcast goes to the room on success. -/
def closePollAuthed (user : Option String) (db : List Poll) (now : Int)
    (sessionId : String) : CloseOutcome :=
  if !(isValidIdentifier sessionId) then ⟨false, "Invalid session ID", user, db, false⟩
  else
    match findOnePoll db sessionId with
    | none => ⟨false, "Poll not found", user, db, false⟩
    | some _ =>
      ⟨true, "Poll closed", user,
        findOneAndUpdatePoll db sessionId (fun p => { p with isActive := false, closedAt := some now }),
        true⟩

/-- The closePoll socket handler (socketHandler.js lines 340-408): when the
socket carries no cached admin identity, fall back to per-event token
verification and promote the verified identity onto the socket; then close. -/
def closePoll (verify : Option String → Option String) (user0 : Option String)
    (db : List Poll) (now : Int) (sessionId : String) (adminToken : Option String) :
    CloseOutcome :=
  match user0 with
  | some a => closePollAuthed (some a) db now sessionId
  | none =>
    match verify adminToken with
    | none => ⟨false, "Unauthorized: admin token required", none, db, false⟩
    | some a => closePollAuthed (some a) db now sessionId

/-- A response document of the single-question schema used by the HTTP
controller (pollController.js): `{userId, response, timestamp}` with no
question id. -/
structure LegacyResponse where
  userId : String
  response : Value
  timestamp : Int
deriving DecidableEq

/-- The poll document shape the HTTP controller reads and writes:
poll-level `type`, `results` and `voters`, with per-poll (not per-question)
dedup. -/
structure LegacyPoll where
  sessionId : String
  type : QType
  results : List ResultEntry
  voters : List String
  responses : List LegacyResponse
  expiresAt : Int
  isActive : Bool
deriving DecidableEq

/-- HTTP status, body flag and message of the controller vote endpoint,
plus the store after the request. -/
structure ControllerOutcome where
  status : Nat
  success : Bool
  message : String
  db : List LegacyPoll
deriving DecidableEq

/-- `findOneAndUpdate({sessionId}, ...)` on the legacy store. -/
def legacyUpdate (db : List LegacyPoll) (sid : String) (f : LegacyPoll → LegacyPoll) :
    List LegacyPoll :=
  match db with
  | [] => []
  | p :: ps => if p.sessionId == sid then f p :: ps else p :: legacyUpdate ps sid f

/-- The HTTP vote endpoint (pollController.js lines 87-176): lookup filtered
by `expiresAt > now` and `isActive`, per-poll dedup on `voters`, then for a
choice poll `$inc` the option counter and `$push` the voter (with no
response record), and for any other poll type `$push` both the voter and a
response. -/
def controllerVote (db : List LegacyPoll) (now : Int) (sessionId vote userId : String) :
    ControllerOutcome :=
  match db.find? (fun p => p.sessionId == sessionId && decide (now < p.expiresAt) && p.isActive) with
  | none => ⟨404, false, "Poll not found or expired", db⟩
  | some p =>
    if p.voters.contains userId then
      ⟨400, false, "You have already voted in this poll", db⟩
    else
      match p.type with
      | QType.multipleChoice | QType.yesNo =>
        match findWithIdx (entryOptionIs vote) p.results with
        | none => ⟨400, false, "Invalid option selected", db⟩
        | some (oi, _) =>
          ⟨200, true, "Vote recorded successfully",
            legacyUpdate db sessionId (fun q =>
              { q with results := modifyAt bumpVotes oi q.results, voters := q.voters ++ [userId] })⟩
      | _ =>
        ⟨200, true, "Vote recorded successfully",
          legacyUpdate db sessionId (fun q =>
            { q with voters := q.voters ++ [userId],
                     responses := q.responses ++ [⟨userId, Value.str vote, now⟩] })⟩

/-- The sliding-window rate limiter (rateLimiter.js).  `requests` is the
`Map` of tracked identifiers in insertion order; `windowSeconds` is the
constructor argument, multiplied by 1000 inside `check`. -/
structure RateLimiter where
  maxRequests : Nat
  windowSeconds : Nat
  requests : List (String × List Int)
deriving DecidableEq

/-- `Map.get(identifier) || []`. -/
def lookupTs (m : List (String × List Int)) (k : String) : List Int :=
  ((m.find? (fun kv => kv.fst == k)).map Prod.snd).getD []

/-- `cleanup(windowStart)`: every tracked key is re-filtered to its
in-window timestamps; keys left with none are deleted. -/
def cleanup (m : List (String × List Int)) (windowStart : Int) :
    List (String × List Int) :=
  m.filterMap (fun kv =>
    if (kv.snd.filter (fun t => windowStart < t)).isEmpty then none
    else some (kv.fst, kv.snd.filter (fun t => windowStart < t)))

/-- `Map.set(k, v)`: replace the binding of `k`, or insert it at the end. -/
def setKey (m : List (String × List Int)) (k : String) (v : List Int) :
    List (String × List Int) :=
  match m with
  | [] => [(k, v)]
  | kv :: rest => if kv.fst == k then (k, v) :: rest else kv :: setKey rest k v

/-- `RateLimiter.check(identifier)` at wall-clock time `now`: lazy cleanup,
count the in-window attempts of the identifier against the ceiling, and
record the current timestamp only when allowed. -/
def RateLimiter.check (rl : RateLimiter) (identifier : String) (now : Int) :
    Bool × RateLimiter :=
  let windowStart : Int := now - rl.windowSeconds * 1000
  let m := cleanup rl.requests windowStart
  let userRequests := lookupTs m identifier
  let validRequests := userRequests.filter (fun t => windowStart < t)
  if rl.maxRequests ≤ validRequests.length then
    (false, { rl with requests := m })
  else
    (true, { rl with requests := setKey m identifier (validRequests ++ [now]) })

/-- One base-36 digit as the uppercase character JS produces after
`.toString(36)` + `.toUpperCase()`. -/
def digitChar36 (d : Nat) : Char :=
  "0123456789ABCDEFGHIJKLMNOPQRSTUVWXYZ".data.getD d (Char.ofNat 48)

/-- `Math.random().toString(36).substring(2, 8).toUpperCase()` (pollService
createPoll): `ds` is the base-36 fraction-digit expansion of the random
double as JS prints it (exact, trailing zeros stripped, so possibly fewer
than 6 digits); `substring(2, 8)` keeps at most the first 6 digits. -/
def genCode (ds : List Nat) : String :=
  String.mk ((ds.take 6).map digitChar36)

/-- The session-id generation loop of `createPoll` (pollService.js lines
58-74): up to 10 attempts, each drawing a fresh candidate and keeping the
first one not already present in the store; `none` models the
`Unable to generate a unique session ID.` error, which aborts only this
creation attempt.  `rand i` is the digit expansion drawn on attempt `i`. -/
def generateSessionId (existing : String → Bool) (rand : Nat → List Nat) : Option String :=
  ((List.range 10).map (fun i => genCode (rand i))).find? (fun c => !(existing c))

/-! Helper lemmas about the list combinators used in the embedding. -/

theorem findWithIdx_some {α : Type} {pred : α → Bool} :
    ∀ {l : List α} {i : Nat} {x : α},
      findWithIdx pred l = some (i, x) → l.get? i = some x ∧ pred x = true := by
  intro l
  induction l with
  | nil => intro i x h; simp [findWithIdx] at h
  | cons a as ih =>
    intro i x h
    rw [findWithIdx] at h
    by_cases hp : pred a
    · rw [if_pos hp] at h
      injection h with h2
      have hi : 0 = i := congrArg Prod.fst h2
      have hx : a = x := congrArg Prod.snd h2
      subst hi; subst hx
      exact ⟨rfl, hp⟩
    · rw [if_neg hp] at h
      cases hfind : findWithIdx pred as with
      | none => rw [hfind] at h; simp at h
      | some p =>
        obtain ⟨j, y⟩ := p
        rw [hfind] at h
        simp only [Option.map_some'] at h
        injection h with h2
        have hi : j + 1 = i := congrArg Prod.fst h2
        have hx : y = x := congrArg Prod.snd h2
        subst hx
        obtain ⟨hg, hpy⟩ := ih hfind
        refine ⟨?_, hpy⟩
        rw [← hi, List.get?_cons_succ]
        exact hg

theorem modifyAt_get? {α : Type} (f : α → α) :
    ∀ (i : Nat) (l : List α) (j : Nat),
      (modifyAt f i l).get? j = if j = i then (l.get? i).map f else l.get? j := by
  intro i l
  induction l generalizing i with
  | nil => intro j; simp [modifyAt]
  | cons a as ih =>
    intro j
    cases i with
    | zero =>
      cases j with
      | zero => simp [modifyAt]
      | succ j2 => simp [modifyAt]
    | succ i2 =>
      cases j with
      | zero => simp [modifyAt]
      | succ j2 => simpa [modifyAt, Nat.succ_eq_add_one] using ih i2 j2

theorem modifyAt_length {α : Type} (f : α → α) :
    ∀ (i : Nat) (l : List α), (modifyAt f i l).length = l.length := by
  intro i l
  induction l generalizing i with
  | nil => simp [modifyAt]
  | cons a as ih =>
    cases i with
    | zero => simp [modifyAt]
    | succ i2 => simp [modifyAt, ih i2]

theorem nodup_get?_ne {α : Type} :
    ∀ {l : List α}, l.Nodup → ∀ {i j : Nat}, i ≠ j →
      ∀ {x y : α}, l.get? i = some x → l.get? j = some y → x ≠ y := by
  intro l
  induction l with
  | nil => intro _ i j _ x y hx; simp at hx
  | cons a as ih =>
    intro hnd i j hij x y hx hy
    have hnd2 := List.nodup_cons.mp hnd
    cases i with
    | zero =>
      cases j with
      | zero => exact absurd rfl hij
      | succ j2 =>
        rw [List.get?_cons_zero] at hx
        rw [List.get?_cons_succ] at hy
        injection hx with hax
        intro hxy
        exact hnd2.1 ((hax.trans hxy) ▸ List.get?_mem hy)
    | succ i2 =>
      cases j with
      | zero =>
        rw [List.get?_cons_succ] at hx
        rw [List.get?_cons_zero] at hy
        injection hy with hay
        intro hxy
        exact hnd2.1 ((hay.trans hxy.symm) ▸ List.get?_mem hx)
      | succ j2 =>
        rw [List.get?_cons_succ] at hx
        rw [List.get?_cons_succ] at hy
        exact ih hnd2.2 (fun h => hij (congrArg (· + 1) h)) hx hy

/-- Vote count carried by one results entry (a rating sample carries no
counter). -/
def entryVotes : ResultEntry → Nat
  | ResultEntry.choice _ v => v
  | ResultEntry.ratingSample _ => 0

/-- Sum of the per-option vote counters of a results array. -/
def sumVotes (rs : List ResultEntry) : Nat :=
  (rs.map entryVotes).sum

/-- Number of response records for one question. -/
def countResp (rs : List Response) (qid : String) : Nat :=
  (rs.filter (fun r => r.questionId == qid)).length

/-- Number of response records for one (participant, question) pair, the
predicate of the already-voted checks. -/
def countPair (rs : List Response) (uid qid : String) : Nat :=
  (rs.filter (fun r => r.userId == uid && r.questionId == qid)).length

/-- Is the question kind single-choice or yes/no? -/
def isChoiceKind : QType → Bool
  | QType.multipleChoice => true
  | QType.yesNo => true
  | _ => false

/-- The tally invariant of the spec: for every single-choice (or yes/no)
question of the poll, the sum of its option counters equals the number of
response records for that question. -/
def choiceTallyInv (p : Poll) : Prop :=
  ∀ i q, p.questions.get? i = some q → isChoiceKind q.type = true →
    sumVotes q.results = countResp p.responses q.id

/-- The voters invariant of the spec, over the two lists involved: the
voters list is duplicate-free and holds exactly the participant ids that
appear in the responses sequence. -/
def votersRespInv (voters : List String) (responses : List Response) : Prop :=
  (∀ u : String, u ∈ voters ↔ ∃ r, r ∈ responses ∧ r.userId = u) ∧ voters.Nodup

theorem sumVotes_modifyAt :
    ∀ {rs : List ResultEntry} {oi : Nat} {o : String} {v : Nat},
      rs.get? oi = some (ResultEntry.choice o v) →
      sumVotes (modifyAt bumpVotes oi rs) = sumVotes rs + 1 := by
  intro rs
  induction rs with
  | nil => intro oi o v h; simp at h
  | cons e es ih =>
    intro oi o v h
    cases oi with
    | zero =>
      rw [List.get?_cons_zero] at h
      injection h with he
      subst he
      simp [modifyAt, sumVotes, bumpVotes, entryVotes]
      omega
    | succ oi2 =>
      rw [List.get?_cons_succ] at h
      have h2 := ih h
      simp [modifyAt, sumVotes] at h2 ⊢
      omega

theorem countResp_append (rs : List Response) (r : Response) (qid : String) :
    countResp (rs ++ [r]) qid =
      countResp rs qid + (if r.questionId == qid then 1 else 0) := by
  simp only [countResp, List.filter_append, List.length_append]
  by_cases h : r.questionId == qid
  · simp [List.filter, h]
  · simp [List.filter, h]

theorem votersRespInv_step {vs : List String} {rs : List Response}
    (hinv : votersRespInv vs rs) {u : String} {r : Response} (hu : r.userId = u) :
    votersRespInv (if vs.contains u then vs else vs ++ [u]) (rs ++ [r]) := by
  obtain ⟨hmem, hnd⟩ := hinv
  by_cases hc : vs.contains u
  · rw [if_pos hc]
    refine ⟨fun w => ⟨fun hw => ?_, fun hw => ?_⟩, hnd⟩
    · obtain ⟨r2, hr2, hr2u⟩ := (hmem w).mp hw
      exact ⟨r2, List.mem_append_left _ hr2, hr2u⟩
    · obtain ⟨r2, hr2, hr2u⟩ := hw
      rcases List.mem_append.mp hr2 with h2 | h2
      · exact (hmem w).mpr ⟨r2, h2, hr2u⟩
      · have : r2 = r := by simpa using h2
        subst this
        have : w = u := by rw [← hr2u, hu]
        subst this
        simpa using hc
  · rw [if_neg hc]
    have hnotmem : u ∉ vs := by
      intro hmem2
      exact hc (List.elem_iff.mpr hmem2)
    constructor
    · intro w
      constructor
      · intro hw
        rcases List.mem_append.mp hw with h2 | h2
        · obtain ⟨r2, hr2, hr2u⟩ := (hmem w).mp h2
          exact ⟨r2, List.mem_append_left _ hr2, hr2u⟩
        · have : w = u := by simpa using h2
          subst this
          exact ⟨r, List.mem_append_right _ (by simp), hu⟩
      · intro hw
        obtain ⟨r2, hr2, hr2u⟩ := hw
        rcases List.mem_append.mp hr2 with h2 | h2
        · exact List.mem_append_left _ ((hmem w).mpr ⟨r2, h2, hr2u⟩)
        · have : r2 = r := by simpa using h2
          subst this
          apply List.mem_append_right
          simp [← hr2u, hu]
    · rw [List.nodup_append]
      refine ⟨hnd, List.nodup_singleton u, ?_⟩
      intro a ha hau
      rw [List.mem_singleton] at hau
      exact hnotmem (hau ▸ ha)

theorem choiceTallyInv_acceptChoice
    (p : Poll) (now : Int) (questionId vote userId : String)
    {qi : Nat} {q : Question} {oi : Nat} {e : ResultEntry}
    (hnd : (p.questions.map (fun q => q.id)).Nodup)
    (hinv : choiceTallyInv p)
    (hqget : p.questions.get? qi = some q) (hqid2 : q.id = questionId)
    (hoget : q.results.get? oi = some e) (he : entryOptionIs vote e = true)
    (vp : Option String) :
    choiceTallyInv (applyUpdateToPoll p
      ⟨some (qi, oi), some ⟨userId, questionId, Value.str vote, now⟩, vp⟩) := by
  intro i q2 hi hc2
  simp only [applyUpdateToPoll] at hi ⊢
  rw [modifyAt_get?] at hi
  rw [countResp_append]
  by_cases hiq : i = qi
  · subst hiq
    rw [if_pos rfl, hqget] at hi
    simp only [Option.map_some'] at hi
    injection hi with hq2
    subst hq2
    cases e with
    | ratingSample n => simp [entryOptionIs] at he
    | choice o v =>
      simp only at hc2 ⊢
      rw [sumVotes_modifyAt hoget]
      have hbase := hinv i q hqget hc2
      have : (questionId == q.id) = true := beq_iff_eq.mpr hqid2.symm
      simp only [this, if_pos]
      omega
  · rw [if_neg hiq] at hi
    have h1 : (p.questions.map (fun q => q.id)).get? i = some q2.id := by
      rw [List.get?_map, hi]; rfl
    have h2 : (p.questions.map (fun q => q.id)).get? qi = some q.id := by
      rw [List.get?_map, hqget]; rfl
    have hne : q2.id ≠ q.id := fun h => nodup_get?_ne hnd hiq h1 h2 h
    have : (questionId == q2.id) = false := by
      rw [beq_eq_false_iff_ne]
      rw [← hqid2]
      exact fun h => hne h.symm
    simp only [this, if_neg, Bool.false_eq_true, reduceIte, Nat.add_zero]
    exact hinv i q2 hi hc2

theorem choiceTallyInv_acceptNoInc
    (p : Poll) {questionId : String} {qi : Nat} {q : Question}
    (hnd : (p.questions.map (fun q => q.id)).Nodup)
    (hinv : choiceTallyInv p)
    (hqget : p.questions.get? qi = some q) (hqid2 : q.id = questionId)
    (hqnc : isChoiceKind q.type = false)
    (v : Value) (uid : String) (now : Int) (vp : Option String) :
    choiceTallyInv (applyUpdateToPoll p ⟨none, some ⟨uid, questionId, v, now⟩, vp⟩) := by
  intro i q2 hi hc2
  simp only [applyUpdateToPoll] at hi ⊢
  rw [countResp_append]
  by_cases hiq : i = qi
  · subst hiq
    rw [hqget] at hi
    injection hi with hq2
    subst hq2
    rw [hc2] at hqnc
    cases hqnc
  · have h1 : (p.questions.map (fun q => q.id)).get? i = some q2.id := by
      rw [List.get?_map, hi]; rfl
    have h2 : (p.questions.map (fun q => q.id)).get? qi = some q.id := by
      rw [List.get?_map, hqget]; rfl
    have hne : q2.id ≠ q.id := fun h => nodup_get?_ne hnd hiq h1 h2 h
    have : (questionId == q2.id) = false := by
      rw [beq_eq_false_iff_ne]
      rw [← hqid2]
      exact fun h => hne h.symm
    simp only [this, if_neg, Bool.false_eq_true, reduceIte, Nat.add_zero]
    exact hinv i q2 hi hc2

/-- C5 (amended): along the socket vote path, the tally invariant is
preserved: for a poll whose embedded questions have pairwise distinct ids
and in which every single-choice / yes-no question already satisfies
"sum of option counters = number of responses for that question", any vote
accepted by the handler read phase (`pollVoteDecide`) keeps that invariant
after its update document is applied.  (The HTTP controller vote path does
not preserve the corresponding property; see the counterexample.) -/
theorem c5_socket_tally_invariant_preserved
    (p : Poll) (now : Int) (questionId vote userId : String) (u : UpdateQuery)
    (hnd : (p.questions.map (fun q => q.id)).Nodup)
    (hinv : choiceTallyInv p)
    (hok : pollVoteDecide p now questionId vote userId = Except.ok u) :
    choiceTallyInv (applyUpdateToPoll p u) := by
  rw [pollVoteDecide] at hok
  by_cases hdup : p.responses.any (fun r => r.userId == userId && r.questionId == questionId)
  · rw [if_pos hdup] at hok; cases hok
  · rw [if_neg hdup] at hok
    cases hfq : findWithIdx (fun q => q.id == questionId) p.questions with
    | none => rw [hfq] at hok; cases hok
    | some pq =>
      obtain ⟨qi, q⟩ := pq
      rw [hfq] at hok
      dsimp only at hok
      obtain ⟨hqget, hqid⟩ := findWithIdx_some hfq
      have hqid2 : q.id = questionId := eq_of_beq hqid
      cases hty : q.type with
      | multipleChoice =>
        rw [hty] at hok
        cases hfo : findWithIdx (entryOptionIs vote) q.results with
        | none => rw [hfo] at hok; cases hok
        | some po =>
          obtain ⟨oi, e⟩ := po
          rw [hfo] at hok
          injection hok with hu
          subst hu
          obtain ⟨hoget, he⟩ := findWithIdx_some hfo
          exact choiceTallyInv_acceptChoice p now questionId vote userId hnd hinv
            hqget hqid2 hoget he _
      | yesNo =>
        rw [hty] at hok
        cases hfo : findWithIdx (entryOptionIs vote) q.results with
        | none => rw [hfo] at hok; cases hok
        | some po =>
          obtain ⟨oi, e⟩ := po
          rw [hfo] at hok
          injection hok with hu
          subst hu
          obtain ⟨hoget, he⟩ := findWithIdx_some hfo
          exact choiceTallyInv_acceptChoice p now questionId vote userId hnd hinv
            hqget hqid2 hoget he _
      | rating =>
        rw [hty] at hok
        dsimp only at hok
        cases hpi : parseInt10 vote with
        | none => rw [hpi] at hok; cases hok
        | some n =>
          rw [hpi] at hok
          dsimp only at hok
          by_cases hrange : n < 1 || 5 < n
          · rw [if_pos hrange] at hok; cases hok
          · rw [if_neg hrange] at hok
            injection hok with hu
            subst hu
            exact choiceTallyInv_acceptNoInc p hnd hinv hqget hqid2
              (by rw [hty]; rfl) _ _ _ _
      | openText =>
        rw [hty] at hok
        injection hok with hu
        subst hu
        exact choiceTallyInv_acceptNoInc p hnd hinv hqget hqid2
          (by rw [hty]; rfl) _ _ _ _

/-- C4 (amended): along the `pollService.submitVote` path, the voters
invariant is preserved: if the voters list is duplicate-free and holds
exactly the participant ids appearing in the responses sequence, then after
any accepted vote it still does.  (The HTTP controller vote path does not
preserve the corresponding property; see the counterexample.) -/
theorem c4_service_voters_invariant_preserved
    (p : Poll) (now : Int) (questionId option userId : String) (p2 : Poll)
    (hinv : votersRespInv p.voters p.responses)
    (hok : submitVoteOnPoll p now questionId option userId = Except.ok p2) :
    votersRespInv p2.voters p2.responses := by
  rw [submitVoteOnPoll] at hok
  by_cases hexp : p.expiresAt < now
  · rw [if_pos hexp] at hok; cases hok
  · rw [if_neg hexp] at hok
    cases hfq : findWithIdx (fun q => q.id == questionId) p.questions with
    | none => rw [hfq] at hok; cases hok
    | some pq =>
      obtain ⟨qi, q⟩ := pq
      rw [hfq] at hok
      dsimp only at hok
      by_cases hdup : p.responses.any (fun r => r.userId == userId && r.questionId == questionId)
      · rw [if_pos hdup] at hok; cases hok
      · rw [if_neg hdup] at hok
        cases hty : q.type with
        | openText =>
          rw [hty] at hok
          dsimp only at hok
          by_cases htrim : (jsTrim option) == ""
          · rw [if_pos htrim] at hok; cases hok
          · rw [if_neg htrim] at hok
            injection hok with hp2
            subst hp2
            exact votersRespInv_step hinv rfl
        | rating =>
          rw [hty] at hok
          dsimp only at hok
          cases hpi : parseInt10 option with
          | none => rw [hpi] at hok; cases hok
          | some n =>
            rw [hpi] at hok
            dsimp only at hok
            by_cases hrange : n < 1 || 5 < n
            · rw [if_pos hrange] at hok; cases hok
            · rw [if_neg hrange] at hok
              injection hok with hp2
              subst hp2
              exact votersRespInv_step hinv rfl
        | multipleChoice =>
          rw [hty] at hok
          dsimp only at hok
          cases hfo : findWithIdx (entryOptionIs (sanitizeText (jsTrim option))) q.results with
          | none => rw [hfo] at hok; cases hok
          | some po =>
            obtain ⟨oi, e⟩ := po
            rw [hfo] at hok
            injection hok with hp2
            subst hp2
            exact votersRespInv_step hinv rfl
        | yesNo =>
          rw [hty] at hok
          dsimp only at hok
          cases hfo : findWithIdx (entryOptionIs (sanitizeText (jsTrim option))) q.results with
          | none => rw [hfo] at hok; cases hok
          | some po =>
            obtain ⟨oi, e⟩ := po
            rw [hfo] at hok
            injection hok with hp2
            subst hp2
            exact votersRespInv_step hinv rfl

/-- Is the read phase outcome an accept? -/
def Decision.isAccept : Decision → Bool
  | Decision.accept _ _ => true
  | Decision.reject _ => false

/-- A fresh single-question multiple-choice poll used for the C1 race. -/
def c1poll : Poll :=
  { sessionId := "ABC123"
    systemId := "aaaabbbbccccddddeeeeffff"
    pollName := "Colors"
    questions := [{ id := "Q1", question := "Favourite colour?", type := QType.multipleChoice,
                    options := ["Red", "Blue"],
                    results := [ResultEntry.choice "Red" 0, ResultEntry.choice "Blue" 0] }]
    responses := []
    voters := []
    expiresAt := 1000
    isActive := true
    closedAt := none
    createdBy := "admin1" }

/-- The read phase of one of two identical concurrent submissions, both
computed against the same store snapshot (both awaited reads complete
before either write runs). -/
def c1decision : Decision :=
  socketVoteDecide true (some "ABC123") [c1poll] 5 "ABC123" "Q1" "Red" "u1"

/-- The store after both write phases run (read-read-write-write schedule). -/
def c1dbFinal : List Poll :=
  c1decision.applyTo (c1decision.applyTo [c1poll] "ABC123") "ABC123"

/-- C1 counterexample: two concurrent `vote` submissions with the same
`(sessionCode, questionId, participantId)` under the read-read-write-write
interleaving are BOTH accepted (the duplicate check ran on the pre-write
snapshot and `findOneAndUpdate` carries no precondition on `responses`),
leaving two Response records for the pair — contradicting "exactly one
succeeds and all others return AlreadyVoted". -/
theorem c1_concurrent_double_vote_both_accepted :
    c1decision.isAccept = true ∧
    countPair (c1dbFinal.headD c1poll).responses "u1" "Q1" = 2 := by
  constructor
  · rfl
  · rfl

/-- C1 (amended): the duplicate check is read-then-write, not a commit-time
precondition.  Sequentially it does hold: when the resolved poll document
already contains a Response for `(participantId, questionId)` at read time,
the socket vote handler fails with the AlreadyVoted message and the store
is unchanged, with no broadcast. -/
theorem c1_sequential_already_voted
    (db : List Poll) (now : Int) (sessionId questionId vote userId : String) (p : Poll)
    (hid : isValidIdentifier sessionId = true)
    (hfind : findOnePoll db sessionId = some p)
    (hdup : p.responses.any (fun r => r.userId == userId && r.questionId == questionId) = true) :
    socketVote true (some p.sessionId) db now sessionId questionId vote userId =
      ⟨false, "You have already voted on this question", db, false⟩ := by
  have hdec : socketVoteDecide true (some p.sessionId) db now sessionId questionId vote userId
      = Decision.reject "You have already voted on this question" := by
    rw [socketVoteDecide]
    simp [hid, hfind, pollVoteDecide, hdup]
  rw [socketVote, hdec]

/-- The C1 poll after the participant has already voted. -/
def c1pollVoted : Poll :=
  { c1poll with
    responses := [⟨"u1", "Q1", Value.str "Red", 3⟩]
    voters := ["u1"] }

/-- Witness for the C1 amended theorem at a concrete store. -/
theorem c1_sequential_already_voted_witness :
    socketVote true (some "ABC123") [c1pollVoted] 5 "ABC123" "Q1" "Blue" "u1" =
      ⟨false, "You have already voted on this question", [c1pollVoted], false⟩ := by
  have h := c1_sequential_already_voted [c1pollVoted] 5 "ABC123" "Q1" "Blue" "u1" c1pollVoted
    (by decide) (by decide) (by decide)
  exact h

/-- A poll explicitly closed by the admin (isActive false, closedAt set)
whose expiry is still in the future. -/
def c2poll : Poll :=
  { sessionId := "ABC123"
    systemId := "aaaabbbbccccddddeeeeffff"
    pollName := "Colors"
    questions := [{ id := "Q1", question := "Favourite colour?", type := QType.multipleChoice,
                    options := ["Red", "Blue"],
                    results := [ResultEntry.choice "Red" 0, ResultEntry.choice "Blue" 0] }]
    responses := []
    voters := []
    expiresAt := 1000
    isActive := false
    closedAt := some 2
    createdBy := "admin1" }

/-- The same poll after the vote that should have been rejected. -/
def c2pollAfter : Poll :=
  { c2poll with
    questions := [{ id := "Q1", question := "Favourite colour?", type := QType.multipleChoice,
                    options := ["Red", "Blue"],
                    results := [ResultEntry.choice "Red" 1, ResultEntry.choice "Blue" 0] }]
    responses := [⟨"u1", "Q1", Value.str "Red", 5⟩]
    voters := ["u1"] }

/-- C2: a vote on an admin-closed (isActive = false), not-yet-expired poll
is ACCEPTED and changes the tally, on both vote paths: the socket vote
handler performs no isActive/expiry check at all, and
`pollService.submitVote` checks only `now > expiresAt`, never `isActive`.
The spec scenario requires Expired/Closed with no tally change. -/
theorem c2_closed_poll_vote_accepted :
    c2poll.isActive = false ∧
    ((5 : Int) < c2poll.expiresAt) ∧
    socketVote true (some "ABC123") [c2poll] 5 "ABC123" "Q1" "Red" "u1" =
      ⟨true, "Vote recorded", [c2pollAfter], true⟩ ∧
    submitVoteOnPoll c2poll 5 "Q1" "Red" "u1" = Except.ok c2pollAfter ∧
    sumVotes ((c2pollAfter.questions.headD ⟨"", "", QType.openText, [], []⟩).results) = 1 := by
  refine ⟨rfl, by decide, ?_, ?_, rfl⟩
  · rfl
  · decide

/-- An open-text question used by the C3 theorems. -/
def c3q : Question :=
  { id := "Q1", question := "Comments?", type := QType.openText, options := [], results := [] }

/-- A live poll with a single open-text question. -/
def c3poll : Poll :=
  { sessionId := "ABC123"
    systemId := "aaaabbbbccccddddeeeeffff"
    pollName := "Feedback"
    questions := [c3q]
    responses := []
    voters := []
    expiresAt := 1000
    isActive := true
    closedAt := none
    createdBy := "admin1" }

/-- The same poll after the empty open-text vote was recorded. -/
def c3pollAfter : Poll :=
  { c3poll with responses := [⟨"u1", "Q1", Value.str "", 5⟩], voters := ["u1"] }

/-- C3 counterexample: the socket vote handler performs no validation at
all for open-text questions: the empty string, which is empty after
trimming and must fail with InvalidInput and no mutation according to the
claim, is accepted and recorded. -/
theorem c3_socket_empty_open_text_accepted :
    jsTrim "" = "" ∧
    socketVote true (some "ABC123") [c3poll] 5 "ABC123" "Q1" "" "u1" =
      ⟨true, "Vote recorded", [c3pollAfter], true⟩ := ⟨rfl, rfl⟩

/-- C3 (amended): `pollService.submitVote` validates the value against the
question kind exactly as claimed — open-text must be non-empty after
trimming, rating must parse (parseInt) to an integer in [1,5], choice must
match a declared option after trim and sanitisation — and every violation
returns an error before any mutation.  The socket vote handler is the path
the claim fails on (see the counterexample): it matches choice votes
without trimming and accepts open-text votes unchecked. -/
theorem c3_service_validation
    (p : Poll) (now : Int) (questionId option userId : String)
    (qi : Nat) (q : Question)
    (hexp : ¬ p.expiresAt < now)
    (hfq : findWithIdx (fun q2 => q2.id == questionId) p.questions = some (qi, q))
    (hdup : p.responses.any (fun r => r.userId == userId && r.questionId == questionId) = false) :
    (q.type = QType.openText → jsTrim option = "" →
       submitVoteOnPoll p now questionId option userId =
         Except.error "Response text is required.") ∧
    (q.type = QType.rating → parseInt10 option = none →
       submitVoteOnPoll p now questionId option userId =
         Except.error "Rating must be between 1 and 5.") ∧
    (∀ n : Int, q.type = QType.rating → parseInt10 option = some n → (n < 1 ∨ 5 < n) →
       submitVoteOnPoll p now questionId option userId =
         Except.error "Rating must be between 1 and 5.") ∧
    (isChoiceKind q.type = true →
       findWithIdx (entryOptionIs (sanitizeText (jsTrim option))) q.results = none →
       submitVoteOnPoll p now questionId option userId =
         Except.error "Option not found.") := by
  refine ⟨?_, ?_, ?_, ?_⟩
  · intro hty htrim
    rw [submitVoteOnPoll, if_neg hexp, hfq]
    dsimp only
    rw [if_neg (by simp [hdup]), hty]
    dsimp only
    rw [htrim]
    simp
  · intro hty hpi
    rw [submitVoteOnPoll, if_neg hexp, hfq]
    dsimp only
    rw [if_neg (by simp [hdup]), hty]
    dsimp only
    rw [hpi]
  · intro n hty hpi hrange
    rw [submitVoteOnPoll, if_neg hexp, hfq]
    dsimp only
    rw [if_neg (by simp [hdup]), hty]
    dsimp only
    rw [hpi]
    dsimp only
    rw [if_pos (by rcases hrange with h | h <;> simp [h])]
  · intro hc hfo
    cases hty : q.type with
    | openText => rw [hty] at hc; cases hc
    | rating => rw [hty] at hc; cases hc
    | multipleChoice =>
      rw [submitVoteOnPoll, if_neg hexp, hfq]
      dsimp only
      rw [if_neg (by simp [hdup]), hty]
      dsimp only
      rw [hfo]
    | yesNo =>
      rw [submitVoteOnPoll, if_neg hexp, hfq]
      dsimp only
      rw [if_neg (by simp [hdup]), hty]
      dsimp only
      rw [hfo]

/-- Witness for the C3 amended theorem: a whitespace-only open-text value
is rejected by the service with no mutation. -/
theorem c3_service_validation_witness :
    submitVoteOnPoll c3poll 5 "Q1" " " "u1" = Except.error "Response text is required." :=
  (c3_service_validation c3poll 5 "Q1" " " "u1" 0 c3q
    (by decide) (by decide) (by decide)).1 rfl (by decide)

/-- A live single-question multiple-choice poll in the document shape the
HTTP controller reads (poll-level type/results/voters). -/
def c4poll : LegacyPoll :=
  { sessionId := "ABC123"
    type := QType.multipleChoice
    results := [ResultEntry.choice "Red" 0, ResultEntry.choice "Blue" 0]
    voters := []
    responses := []
    expiresAt := 1000
    isActive := true }

/-- The C4 poll after the accepted controller vote. -/
def c4pollAfter : LegacyPoll :=
  { c4poll with
    results := [ResultEntry.choice "Red" 1, ResultEntry.choice "Blue" 0]
    voters := ["u1"] }

/-- C4 counterexample: the HTTP controller vote endpoint, on a
multiple-choice poll, records the voter but appends NO response record
(`$inc` + `$push voters` only), so after one accepted vote the voters
field is not the set of participant ids appearing in responses: `u1` is a
voter with no response. -/
theorem c4_controller_vote_breaks_voters_inv :
    controllerVote [c4poll] 5 "ABC123" "Red" "u1" =
      ⟨200, true, "Vote recorded successfully", [c4pollAfter]⟩ ∧
    ¬ (("u1" ∈ c4pollAfter.voters) ↔ ∃ r, r ∈ c4pollAfter.responses ∧ r.userId = "u1") := by
  refine ⟨rfl, ?_⟩
  intro h
  obtain ⟨r, hr, _⟩ := h.mp (by decide)
  simp [c4pollAfter, c4poll] at hr

/-- The fresh poll used by the C4 witness. -/
def c4wpoll : Poll :=
  { sessionId := "DEF456"
    systemId := "aaaabbbbccccddddeeee0000"
    pollName := "Colors"
    questions := [{ id := "Q1", question := "Favourite colour?", type := QType.multipleChoice,
                    options := ["Red", "Blue"],
                    results := [ResultEntry.choice "Red" 0, ResultEntry.choice "Blue" 0] }]
    responses := []
    voters := []
    expiresAt := 1000
    isActive := true
    closedAt := none
    createdBy := "admin1" }

/-- The C4 witness poll after the accepted service vote. -/
def c4wpollAfter : Poll :=
  { c4wpoll with
    questions := [{ id := "Q1", question := "Favourite colour?", type := QType.multipleChoice,
                    options := ["Red", "Blue"],
                    results := [ResultEntry.choice "Red" 1, ResultEntry.choice "Blue" 0] }]
    responses := [⟨"u1", "Q1", Value.str "Red", 5⟩]
    voters := ["u1"] }

/-- Witness for the C4 amended theorem at a concrete accepted vote. -/
theorem c4_service_voters_invariant_witness :
    votersRespInv c4wpollAfter.voters c4wpollAfter.responses :=
  c4_service_voters_invariant_preserved c4wpoll 5 "Q1" "Red" "u1" c4wpollAfter
    ⟨fun u => by simp [c4wpoll], by simp [c4wpoll]⟩ (by decide)

/-- A second copy of the live legacy poll, for the C5 counterexample. -/
def c5poll : LegacyPoll :=
  { sessionId := "ABC123"
    type := QType.multipleChoice
    results := [ResultEntry.choice "Red" 0, ResultEntry.choice "Blue" 0]
    voters := []
    responses := []
    expiresAt := 1000
    isActive := true }

/-- The C5 poll after the accepted controller vote. -/
def c5pollAfter : LegacyPoll :=
  { c5poll with
    results := [ResultEntry.choice "Red" 1, ResultEntry.choice "Blue" 0]
    voters := ["u1"] }

/-- C5 counterexample: after one accepted controller vote on a
multiple-choice poll the sum of the option counters is 1 while the poll
holds zero response records, so the tally sum does not equal the response
count for the question. -/
theorem c5_controller_vote_breaks_tally :
    controllerVote [c5poll] 5 "ABC123" "Red" "u1" =
      ⟨200, true, "Vote recorded successfully", [c5pollAfter]⟩ ∧
    sumVotes c5pollAfter.results = 1 ∧
    c5pollAfter.responses.length = 0 := ⟨rfl, rfl, rfl⟩

/-- The fresh poll used by the C5 witness. -/
def c5wpoll : Poll :=
  { sessionId := "GHI789"
    systemId := "aaaabbbbccccddddeeee1111"
    pollName := "Colors"
    questions := [{ id := "Q1", question := "Favourite colour?", type := QType.multipleChoice,
                    options := ["Red", "Blue"],
                    results := [ResultEntry.choice "Red" 0, ResultEntry.choice "Blue" 0] }]
    responses := []
    voters := []
    expiresAt := 1000
    isActive := true
    closedAt := none
    createdBy := "admin1" }

/-- The accepted update document of the C5 witness vote. -/
def c5wupd : UpdateQuery :=
  { incVote := some (0, 0)
    pushResponse := some ⟨"u1", "Q1", Value.str "Red", 5⟩
    pushVoter := some "u1" }

/-- Witness for the C5 amended theorem at a concrete accepted vote. -/
theorem c5_socket_tally_invariant_witness :
    choiceTallyInv (applyUpdateToPoll c5wpoll c5wupd) := by
  refine c5_socket_tally_invariant_preserved c5wpoll 5 "Q1" "Red" "u1" c5wupd
    (by decide) ?_ (by decide)
  intro i q hi hc
  cases i with
  | zero =>
    injection hi with h
    subst h
    decide
  | succ i2 => simp [c5wpoll] at hi

theorem digitChar36_shape {d : Nat} (hd : d < 36) :
    (digitChar36 d).isDigit = true ∨ (digitChar36 d).isUpper = true := by
  interval_cases d <;> simp [digitChar36]

/-- C6 counterexample: for the random draw 0.5 the base-36 printout is
"0.i" (the single digit 18), so `substring(2, 8).toUpperCase()` yields the
one-character code "I" — not a 6-character string.  Nothing in the initial
generation loop re-validates the candidate length before persisting it. -/
theorem c6_short_code : genCode [18] = "I" ∧ (genCode [18]).length ≠ 6 := ⟨rfl, by decide⟩

/-- C6 (amended): a generated code consists of the first
`min 6 (number of digits)` uppercase alphanumeric characters of the random
draw base-36 expansion — exactly 6 characters only when the expansion has
at least 6 digits — and the generation-and-persist loop is bounded: it
makes at most 10 attempts, returns a candidate absent from the store when
one is found, and gives up (an error fatal only to that creation attempt)
when all 10 candidates collide. -/
theorem c6_code_shape_and_retry_bound :
    (∀ ds : List Nat, (∀ d ∈ ds, d < 36) →
        (genCode ds).length = min 6 ds.length ∧
        ∀ c ∈ (genCode ds).data, c.isDigit = true ∨ c.isUpper = true) ∧
    (∀ (existing : String → Bool) (rand : Nat → List Nat),
        (∀ i, i < 10 → existing (genCode (rand i)) = true) →
        generateSessionId existing rand = none) ∧
    (∀ (existing : String → Bool) (rand : Nat → List Nat) (c : String),
        generateSessionId existing rand = some c →
        existing c = false ∧ ∃ i, i < 10 ∧ c = genCode (rand i)) := by
  refine ⟨?_, ?_, ?_⟩
  · intro ds hds
    constructor
    · simp [genCode, String.length]
    · intro c hc
      simp only [genCode] at hc
      rw [List.mem_map] at hc
      obtain ⟨d, hdmem, hdc⟩ := hc
      have hd36 : d < 36 := hds d (List.take_subset 6 ds hdmem)
      exact hdc ▸ digitChar36_shape hd36
  · intro existing rand hall
    rw [generateSessionId, List.find?_eq_none]
    intro x hx
    rw [List.mem_map] at hx
    obtain ⟨i, hi, hxi⟩ := hx
    rw [List.mem_range] at hi
    rw [← hxi, hall i hi]
    simp
  · intro existing rand c hfound
    have hpred := List.find?_some hfound
    have hmem := List.mem_of_find?_eq_some hfound
    rw [List.mem_map] at hmem
    obtain ⟨i, hi, hic⟩ := hmem
    rw [List.mem_range] at hi
    constructor
    · simpa using hpred
    · exact ⟨i, hi, hic.symm⟩

/-- Witness for the C6 amended theorem: a 7-digit expansion yields a
6-character code, and a store in which every candidate already exists makes
the loop give up with the creation-local error. -/
theorem c6_code_shape_witness :
    (genCode [10, 11, 12, 13, 14, 15, 16]).length = min 6 7 ∧
    generateSessionId (fun _ => true) (fun _ => [18]) = none := by
  constructor
  · exact (c6_code_shape_and_retry_bound.1 [10, 11, 12, 13, 14, 15, 16] (by decide)).1
  · exact c6_code_shape_and_retry_bound.2.1 (fun _ => true) (fun _ => [18]) (fun i _ => rfl)

/-- C7: a joinPoll request whose session code resolves to no poll never
joins a room, leaves the stored room membership unchanged and emits no
broadcast — on every path through the handler — and, once past the rate
limiter / syntax / admin gates (the viewer path shown), the callback is
exactly the NotFound failure. -/
theorem c7_unknown_code_join_not_registered :
    (∀ (verify : Option String → Option String) (allowed : Bool)
        (u0 pd0 : Option String) (db : List Poll) (now : Int)
        (sid ut : String) (tok : Option String),
        findOnePoll db sid = none →
        (joinPoll verify allowed u0 pd0 db now sid ut tok).joined = none ∧
        (joinPoll verify allowed u0 pd0 db now sid ut tok).broadcast = false ∧
        (joinPoll verify allowed u0 pd0 db now sid ut tok).pollData = pd0) ∧
    (∀ (verify : Option String → Option String) (u0 pd0 : Option String)
        (db : List Poll) (now : Int) (sid : String) (tok : Option String),
        isValidIdentifier sid = true →
        findOnePoll db sid = none →
        joinPoll verify true u0 pd0 db now sid "user" tok =
          ⟨false, "Poll not found", u0, pd0, none, false, none⟩) := by
  constructor
  · intro verify allowed u0 pd0 db now sid ut tok hfind
    cases allowed with
    | false => simp [joinPoll]
    | true =>
      by_cases hv : isValidIdentifier sid
      · by_cases hg : ut == "admin" && u0.isNone
        · cases hverify : verify tok with
          | none => simp [joinPoll, hv, hg, hverify]
          | some a => simp [joinPoll, hv, hg, hverify, joinPollResolved, hfind]
        · simp [joinPoll, hv, hg, joinPollResolved, hfind]
      · simp [joinPoll, hv]
  · intro verify u0 pd0 db now sid tok hv hfind
    simp [joinPoll, hv, joinPollResolved, hfind]

/-- Witness for the C7 theorem on an empty store. -/
theorem c7_unknown_code_join_witness :
    joinPoll (fun _ => none) true none none [] 7 "ABC123" "user" none =
      ⟨false, "Poll not found", none, none, none, false, none⟩ :=
  c7_unknown_code_join_not_registered.2 (fun _ => none) none none [] 7 "ABC123" none
    (by decide) rfl

/-- C9: a socket vote from a connection that never joined a room, or whose
joined room differs from the canonical session id the target poll resolves
to, is rejected with the join-first message and leaves the store unchanged
with no broadcast. -/
theorem c9_vote_requires_join :
    (∀ (db : List Poll) (now : Int) (sid qid v uid : String),
        socketVote true none db now sid qid v uid =
          ⟨false, "You must join the poll first", db, false⟩) ∧
    (∀ (db : List Poll) (now : Int) (room sid qid v uid : String) (p : Poll),
        isValidIdentifier sid = true →
        findOnePoll db sid = some p →
        room ≠ p.sessionId →
        socketVote true (some room) db now sid qid v uid =
          ⟨false, "You must join the poll first", db, false⟩) := by
  constructor
  · intro db now sid qid v uid
    rfl
  · intro db now room sid qid v uid p hv hfind hroom
    have hbeq : (room == p.sessionId) = false := beq_eq_false_iff_ne.mpr hroom
    have hdec : socketVoteDecide true (some room) db now sid qid v uid =
        Decision.reject "You must join the poll first" := by
      rw [socketVoteDecide]
      simp [hv, hfind, hbeq]
    rw [socketVote, hdec]

/-- The live poll used by the C9 witness. -/
def c9poll : Poll :=
  { sessionId := "ABC123"
    systemId := "aaaabbbbccccddddeeee2222"
    pollName := "Colors"
    questions := [{ id := "Q1", question := "Favourite colour?", type := QType.multipleChoice,
                    options := ["Red", "Blue"],
                    results := [ResultEntry.choice "Red" 0, ResultEntry.choice "Blue" 0] }]
    responses := []
    voters := []
    expiresAt := 1000
    isActive := true
    closedAt := none
    createdBy := "admin1" }

/-- Witness for the C9 theorem: both the never-joined case and the
wrong-room case at concrete inputs. -/
theorem c9_vote_requires_join_witness :
    socketVote true none [c9poll] 5 "ABC123" "Q1" "Red" "u1" =
      ⟨false, "You must join the poll first", [c9poll], false⟩ ∧
    socketVote true (some "ZZZZ99") [c9poll] 5 "ABC123" "Q1" "Red" "u1" =
      ⟨false, "You must join the poll first", [c9poll], false⟩ := by
  constructor
  · exact c9_vote_requires_join.1 [c9poll] 5 "ABC123" "Q1" "Red" "u1"
  · exact c9_vote_requires_join.2 [c9poll] 5 "ZZZZ99" "ABC123" "Q1" "Red" "u1" c9poll
      (by decide) (by decide) (by decide)

/-- C10: once a per-event admin token verifies, the admin identity is
written to the cached socket user (even when the later poll lookup fails),
and a connection whose cached user is an admin runs closePoll without
consulting the token verifier at all — the outcome is identical under any
two verifiers — and can never be rejected as Unauthorized. -/
theorem c10_admin_identity_cached :
    (∀ (verify : Option String → Option String) (pd0 : Option String)
        (db : List Poll) (now : Int) (sid tok a : String),
        isValidIdentifier sid = true →
        verify (some tok) = some a →
        (joinPoll verify true none pd0 db now sid "admin" (some tok)).user = some a) ∧
    (∀ (v1 v2 : Option String → Option String) (a : String) (db : List Poll)
        (now : Int) (sid : String) (tok : Option String),
        closePoll v1 (some a) db now sid tok = closePoll v2 (some a) db now sid tok) ∧
    (∀ (v : Option String → Option String) (a : String) (db : List Poll)
        (now : Int) (sid : String) (tok : Option String),
        (closePoll v (some a) db now sid tok).message ≠ "Unauthorized: admin token required") := by
  refine ⟨?_, ?_, ?_⟩
  · intro verify pd0 db now sid tok a hv hver
    cases hfind : findOnePoll db sid with
    | none => simp [joinPoll, hv, hver, joinPollResolved, hfind]
    | some p => simp [joinPoll, hv, hver, joinPollResolved, hfind]
  · intro v1 v2 a db now sid tok
    rfl
  · intro v a db now sid tok
    show (closePollAuthed (some a) db now sid).message ≠ _
    rw [closePollAuthed]
    by_cases hv : isValidIdentifier sid
    · cases hfind : findOnePoll db sid with
      | none => simp [hv, hfind]
      | some p => simp [hv, hfind]
    · simp [hv]

/-- Witness for the C10 theorem: a verifier that accepts the token "t1"
promotes admin "a1" onto the socket during joinPoll, and closePoll with the
cached admin succeeds under a verifier that rejects everything. -/
theorem c10_admin_identity_cached_witness :
    (joinPoll (fun _ => some "a1") true none none [] 7 "ABC123" "admin" (some "t1")).user =
      some "a1" ∧
    closePoll (fun _ => none) (some "a1") [] 7 "ABC123" none =
      closePoll (fun _ => some "a1") (some "a1") [] 7 "ABC123" none ∧
    (closePoll (fun _ => none) (some "a1") [] 7 "ABC123" none).message ≠
      "Unauthorized: admin token required" := by
  refine ⟨?_, ?_, ?_⟩
  · exact c10_admin_identity_cached.1 (fun _ => some "a1") none [] 7 "ABC123" "t1" "a1"
      (by decide) rfl
  · exact c10_admin_identity_cached.2.1 (fun _ => none) (fun _ => some "a1") "a1" [] 7
      "ABC123" none
  · exact c10_admin_identity_cached.2.2 (fun _ => none) "a1" [] 7 "ABC123" none

theorem filter_idem {α : Type} (p : α → Bool) :
    ∀ l : List α, (l.filter p).filter p = l.filter p := by
  intro l
  induction l with
  | nil => rfl
  | cons a as ih =>
    by_cases h : p a
    · simp [List.filter_cons, h, ih]
    · simp [List.filter_cons, h, ih]

theorem lookupTs_cons (kv : String × List Int) (rest : List (String × List Int)) (k : String) :
    lookupTs (kv :: rest) k = if kv.fst == k then kv.snd else lookupTs rest k := by
  cases hb : (kv.fst == k) with
  | true => simp [lookupTs, List.find?, hb]
  | false => simp [lookupTs, List.find?, hb]

theorem cleanup_cons (kv : String × List Int) (rest : List (String × List Int)) (ws : Int) :
    cleanup (kv :: rest) ws =
      if (kv.snd.filter (fun t => ws < t)).isEmpty then cleanup rest ws
      else (kv.fst, kv.snd.filter (fun t => ws < t)) :: cleanup rest ws := by
  simp only [cleanup, List.filterMap_cons]
  by_cases h : (kv.snd.filter (fun t => ws < t)).isEmpty
  · rw [if_pos h, if_pos h]
  · rw [if_neg h, if_neg h]

theorem setKey_cons (kv : String × List Int) (rest : List (String × List Int))
    (k : String) (v : List Int) :
    setKey (kv :: rest) k v =
      if kv.fst == k then (k, v) :: rest else kv :: setKey rest k v := rfl

theorem lookupTs_not_mem :
    ∀ {m : List (String × List Int)} {k : String},
      k ∉ m.map Prod.fst → lookupTs m k = [] := by
  intro m
  induction m with
  | nil => intro k _; rfl
  | cons kv rest ih =>
    intro k hk
    rw [List.map_cons, List.mem_cons] at hk
    push_neg at hk
    rw [lookupTs_cons, if_neg (by simp; exact fun h => hk.1 h.symm)]
    exact ih hk.2

theorem keys_cleanup_subset :
    ∀ {m : List (String × List Int)} (ws : Int) {k : String},
      k ∈ (cleanup m ws).map Prod.fst → k ∈ m.map Prod.fst := by
  intro m
  induction m with
  | nil => intro ws k hk; simp [cleanup] at hk
  | cons kv rest ih =>
    intro ws k hk
    rw [cleanup_cons] at hk
    by_cases hemp : (kv.snd.filter (fun t => ws < t)).isEmpty
    · rw [if_pos hemp] at hk
      exact List.mem_cons_of_mem _ (ih ws hk)
    · rw [if_neg hemp, List.map_cons, List.mem_cons] at hk
      rcases hk with hk | hk
      · exact List.mem_cons.mpr (Or.inl hk)
      · exact List.mem_cons_of_mem _ (ih ws hk)

theorem lookupTs_cleanup :
    ∀ {m : List (String × List Int)}, (m.map Prod.fst).Nodup →
      ∀ (ws : Int) (k : String),
        lookupTs (cleanup m ws) k = (lookupTs m k).filter (fun t => ws < t) := by
  intro m
  induction m with
  | nil => intro _ ws k; rfl
  | cons kv rest ih =>
    intro hnd ws k
    rw [List.map_cons, List.nodup_cons] at hnd
    rw [cleanup_cons, lookupTs_cons]
    by_cases hkk : kv.fst == k
    · have hkeq : kv.fst = k := eq_of_beq hkk
      rw [if_pos hkk]
      by_cases hemp : (kv.snd.filter (fun t => ws < t)).isEmpty
      · rw [if_pos hemp]
        have hnotin : k ∉ (cleanup rest ws).map Prod.fst := by
          intro hmem
          exact hnd.1 (hkeq ▸ keys_cleanup_subset ws hmem)
        rw [lookupTs_not_mem hnotin]
        rw [List.isEmpty_iff] at hemp
        exact hemp.symm
      · rw [if_neg hemp, lookupTs_cons, if_pos hkk]
    · rw [if_neg hkk]
      by_cases hemp : (kv.snd.filter (fun t => ws < t)).isEmpty
      · rw [if_pos hemp]
        exact ih hnd.2 ws k
      · rw [if_neg hemp, lookupTs_cons, if_neg hkk]
        exact ih hnd.2 ws k

theorem lookupTs_setKey_self :
    ∀ (m : List (String × List Int)) (k : String) (v : List Int),
      lookupTs (setKey m k v) k = v := by
  intro m
  induction m with
  | nil =>
    intro k v
    rw [setKey, lookupTs_cons, if_pos (by simp)]
  | cons kv rest ih =>
    intro k v
    rw [setKey_cons]
    by_cases hkk : kv.fst == k
    · rw [if_pos hkk, lookupTs_cons, if_pos (by simp)]
    · rw [if_neg hkk, lookupTs_cons, if_neg hkk]
      exact ih k v

theorem find?_setKey_other :
    ∀ (m : List (String × List Int)) (k : String) (v : List Int) {k2 : String},
      k2 ≠ k →
      (setKey m k v).find? (fun kv => kv.fst == k2) = m.find? (fun kv => kv.fst == k2) := by
  intro m
  induction m with
  | nil =>
    intro k v k2 hne
    rw [setKey]
    cases hb : (((k, v) : String × List Int).fst == k2) with
    | true =>
      exact absurd (eq_of_beq hb) (fun h => hne h.symm)
    | false => simp [List.find?, hb]
  | cons kv rest ih =>
    intro k v k2 hne
    rw [setKey_cons]
    by_cases hkk : kv.fst == k
    · rw [if_pos hkk]
      have h1 : (((k, v) : String × List Int).fst == k2) = false := by
        simp
        exact fun h => hne h.symm
      have h2 : (kv.fst == k2) = false := by
        simp
        rw [eq_of_beq hkk]
        exact fun h => hne h.symm
      simp [List.find?, h1, h2]
    · rw [if_neg hkk]
      cases hk2 : (kv.fst == k2) with
      | true => simp [List.find?, hk2]
      | false =>
        simp only [List.find?, hk2]
        exact ih k v hne

theorem find?_cleanup_stale :
    ∀ {m : List (String × List Int)}, (m.map Prod.fst).Nodup →
      ∀ (ws : Int) {k : String},
        (∀ t ∈ lookupTs m k, ¬ ws < t) →
        (cleanup m ws).find? (fun kv => kv.fst == k) = none := by
  intro m
  induction m with
  | nil => intro _ ws k _; rfl
  | cons kv rest ih =>
    intro hnd ws k hstale
    rw [List.map_cons, List.nodup_cons] at hnd
    rw [cleanup_cons]
    by_cases hkk : kv.fst == k
    · have hkeq : kv.fst = k := eq_of_beq hkk
      have hlk : lookupTs (kv :: rest) k = kv.snd := by rw [lookupTs_cons, if_pos hkk]
      have hemp : (kv.snd.filter (fun t => ws < t)).isEmpty := by
        rw [List.isEmpty_iff, List.filter_eq_nil]
        intro t ht
        have := hstale t (by rw [hlk]; exact ht)
        simpa using this
      rw [if_pos hemp, List.find?_eq_none]
      intro kv2 hkv2
      simp only [beq_iff_eq]
      intro heq
      have hnotin : k ∉ (cleanup rest ws).map Prod.fst := by
        intro hmem
        exact hnd.1 (hkeq ▸ keys_cleanup_subset ws hmem)
      exact hnotin (heq ▸ List.mem_map_of_mem Prod.fst hkv2)
    · have hlk : lookupTs (kv :: rest) k = lookupTs rest k := by
        rw [lookupTs_cons, if_neg hkk]
      have hrest := ih hnd.2 ws (fun t ht => hstale t (by rw [hlk]; exact ht))
      by_cases hemp : (kv.snd.filter (fun t => ws < t)).isEmpty
      · rw [if_pos hemp]
        exact hrest
      · rw [if_neg hemp]
        cases hb : (((kv.fst, kv.snd.filter (fun t => ws < t)) : String × List Int).fst == k) with
        | true => exact absurd hb (by simp [hkk])
        | false =>
          simp only [List.find?, hb]
          exact hrest

/-- C8: semantics of `RateLimiter.check` for any limiter state with
distinct tracked keys (`requests` models a JS `Map`): (1) `check` returns
false exactly when the number of previously recorded attempts of the
identifier lying inside the trailing window already reaches the ceiling;
(2) the attempts stored for the identifier afterwards are its previous
in-window attempts, plus the current timestamp exactly when the call was
allowed; (3) any other tracked key whose attempts all fell out of the
window has been pruned from the map. -/
theorem c8_check_semantics
    (rl : RateLimiter) (id : String) (now : Int) (k : String)
    (hnd : (rl.requests.map Prod.fst).Nodup)
    (hk : k ≠ id)
    (hstale : ∀ t ∈ lookupTs rl.requests k, ¬ (now - rl.windowSeconds * 1000 < t)) :
    ((rl.check id now).fst = false ↔
       rl.maxRequests ≤ ((lookupTs rl.requests id).filter
         (fun t => now - rl.windowSeconds * 1000 < t)).length) ∧
    (lookupTs (rl.check id now).snd.requests id =
       (lookupTs rl.requests id).filter (fun t => now - rl.windowSeconds * 1000 < t) ++
         (if (rl.check id now).fst then [now] else [])) ∧
    ((rl.check id now).snd.requests.find? (fun kv => kv.fst == k) = none) := by
  have hclean := lookupTs_cleanup hnd (now - rl.windowSeconds * 1000) id
  have hidem := filter_idem (fun t => decide (now - rl.windowSeconds * 1000 < t))
    (lookupTs rl.requests id)
  by_cases hcond : rl.maxRequests ≤
      ((lookupTs (cleanup rl.requests (now - rl.windowSeconds * 1000)) id).filter
        (fun t => now - rl.windowSeconds * 1000 < t)).length
  · have hch : rl.check id now =
        (false, { rl with requests := cleanup rl.requests (now - rl.windowSeconds * 1000) }) := by
      simp only [RateLimiter.check]
      rw [if_pos hcond]
    rw [hch]
    refine ⟨?_, ?_, ?_⟩
    · constructor
      · intro _
        rw [hclean, hidem] at hcond
        exact hcond
      · intro _
        rfl
    · rw [hclean]
      simp
    · exact find?_cleanup_stale hnd _ hstale
  · have hch : rl.check id now =
        (true, { rl with requests := (setKey
          (cleanup rl.requests (now - rl.windowSeconds * 1000)) id
          (((lookupTs (cleanup rl.requests (now - rl.windowSeconds * 1000)) id).filter
            (fun t => now - rl.windowSeconds * 1000 < t)) ++ [now])) }) := by
      simp only [RateLimiter.check]
      rw [if_neg hcond]
    rw [hch]
    refine ⟨?_, ?_, ?_⟩
    · constructor
      · intro h
        cases h
      · intro h
        rw [hclean, hidem] at hcond
        exact absurd h hcond
    · rw [lookupTs_setKey_self, hclean, hidem]
      simp
    · rw [find?_setKey_other _ _ _ hk]
      exact find?_cleanup_stale hnd _ hstale

/-- A concrete limiter state for the C8 witness: ceiling 2, window 60s,
key a at the ceiling inside the window, key b fully expired. -/
def c8rl : RateLimiter :=
  { maxRequests := 2
    windowSeconds := 60
    requests := [("a", [900, 950]), ("b", [-100000])] }

/-- Witness for the C8 theorem: at time 1000 the key a (2 in-window
attempts against ceiling 2) is denied and not recorded, and the fully
expired key b is pruned. -/
theorem c8_check_semantics_witness :
    ((c8rl.check "a" 1000).fst = false ↔
       c8rl.maxRequests ≤ ((lookupTs c8rl.requests "a").filter
         (fun t => (1000 : Int) - c8rl.windowSeconds * 1000 < t)).length) ∧
    (lookupTs (c8rl.check "a" 1000).snd.requests "a" =
       (lookupTs c8rl.requests "a").filter (fun t => (1000 : Int) - c8rl.windowSeconds * 1000 < t) ++
         (if (c8rl.check "a" 1000).fst then [(1000 : Int)] else [])) ∧
    ((c8rl.check "a" 1000).snd.requests.find? (fun kv => kv.fst == "b") = none) :=
  c8_check_semantics c8rl "a" 1000 "b" (by decide) (by decide) (by decide)

end Interrixon
